import Mathlib

/-!
Verification of the cc-sessions session catalog (Rust) against its
natural-language specification.

The development is a shallow embedding of the relevant source code:

* src/message_classification.rs : message classification predicates
* src/claude_code.rs            : path/UUID filter, single-pass scanner,
                                  tail reader, session builder, source
                                  locator, multi-source aggregator
* src/interactive_state.rs      : navigation state machine
* src/main.rs                   : normalize_summary helper

Modelling conventions:
* Raw file contents and raw lines are `List Char` (Rust operates on bytes /
  UTF-8 strings; positions and window sizes are counted in characters here).
* Parsed strings are Lean `String`.
* The JSON parser (serde_json) is modelled as an abstract per-line function
  `parse : List Char → Option JValue`; `none` is a parse failure.  Theorems
  quantify over `parse`, concrete instances supply an explicit table.
* Filesystem timestamps are `Nat` (seconds); a missing timestamp is `none`.
-/

/-! ### Generic character-list helpers (Rust str primitives) -/

/-- Rust str::starts_with with a char pattern. -/
def starts_with_char (s : String) (c : Char) : Bool :=
  match s.data with
  | [] => false
  | d :: _ => d == c

/-- Rust str::starts_with with a string pattern. -/
def starts_with_str (s : String) (p : String) : Bool :=
  p.data.isPrefixOf s.data

/-- Rust str::contains with a string pattern (substring test). -/
def contains_substr (hay : List Char) (pat : List Char) : Bool :=
  hay.tails.any (fun t => pat.isPrefixOf t)

/-- Split a character list at every occurrence of a separator
(Rust str::split; always returns at least one piece). -/
def split_on_char (c : Char) : List Char → List (List Char)
  | [] => [[]]
  | d :: rest =>
    if d = c then [] :: split_on_char c rest
    else (split_on_char c rest).modifyHead (fun l => d :: l)

/-- Join pieces with a single separator character (inverse of
split_on_char; Rust slice::join on one-char separator). -/
def join_sep (c : Char) : List (List Char) → List Char
  | [] => []
  | [l] => l
  | l :: ls => l ++ c :: join_sep c ls

/-- Rust str::split_once: split at the first occurrence of the separator. -/
def split_once (c : Char) : List Char → Option (List Char × List Char)
  | [] => none
  | d :: rest =>
    if d = c then some ([], rest)
    else (split_once c rest).map (fun p => (d :: p.1, p.2))

/-- Rust str::strip_prefix: remove a literal leading pattern if present. -/
def strip_pref (p : List Char) (s : List Char) : Option (List Char) :=
  if p.isPrefixOf s then some (s.drop p.length) else none

/-- Accumulator worker for split_whitespace. -/
def split_ws_go : List Char → List Char → List (List Char)
  | [], acc => if acc = [] then [] else [acc.reverse]
  | c :: rest, acc =>
    if c.isWhitespace then
      if acc = [] then split_ws_go rest []
      else acc.reverse :: split_ws_go rest []
    else split_ws_go rest (c :: acc)

/-- Rust str::split_whitespace: whitespace-separated words, no empties.
(Char.isWhitespace models Rust char::is_whitespace.) -/
def split_ws (s : List Char) : List (List Char) :=
  split_ws_go s []

/-- Index of the last occurrence of a character, if any
(Rust str::rmatch_indices(c).next(), char-counted). -/
def last_idx_of (c : Char) (l : List Char) : Option Nat :=
  (l.reverse.findIdx? (fun d => d == c)).map (fun j => l.length - 1 - j)

/-- Rust char::is_ascii_hexdigit. -/
def is_ascii_hexdigit (c : Char) : Bool :=
  ('0' ≤ c && c ≤ '9') || ('a' ≤ c && c ≤ 'f') || ('A' ≤ c && c ≤ 'F')

/-- Rust String::to_lowercase (simple per-char model). -/
def to_lowercase (s : String) : String :=
  String.mk (s.data.map Char.toLower)

/-! ### src/message_classification.rs -/

/-- Classification for user-message text when computing session metrics. -/
inductive MessageKind where
  | Empty
  | SlashCommand
  | CommandTag
  | BracketedOutput
  | UserContent
deriving DecidableEq

/-- classify_user_text_for_metrics from src/message_classification.rs. -/
def classify_user_text_for_metrics (text : String) : MessageKind :=
  if text = "" then MessageKind.Empty
  else if starts_with_char text '/' then MessageKind.SlashCommand
  else if starts_with_char text '<' then MessageKind.CommandTag
  else if starts_with_char text '[' then MessageKind.BracketedOutput
  else MessageKind.UserContent

/-- counts_as_turn from src/message_classification.rs. -/
def counts_as_turn (text : String) : Bool :=
  decide (classify_user_text_for_metrics text = MessageKind.UserContent)

/-- is_first_prompt_candidate from src/message_classification.rs. -/
def is_first_prompt_candidate (text : String) : Bool :=
  if text = "" then false
  else !starts_with_char text '/' && !starts_with_char text '<' &&
    !starts_with_str text "[Request"

/-! ### JSON values (model of serde_json::Value) -/

/-- Parsed JSON value, as far as the session code inspects it. -/
inductive JValue where
  | jnull
  | jbool (b : Bool)
  | jnum (n : Int)
  | jstr (s : String)
  | jarr (xs : List JValue)
  | jobj (fields : List (String × JValue))

/-- serde_json::Value::get on an object key. -/
def JValue.get (v : JValue) (key : String) : Option JValue :=
  match v with
  | .jobj fields => (fields.find? (fun kv => kv.1 == key)).map (fun kv => kv.2)
  | _ => none

/-- serde_json::Value::as_str. -/
def JValue.as_str : JValue → Option String
  | .jstr s => some s
  | _ => none

/-- serde_json::Value::as_array. -/
def JValue.as_array : JValue → Option (List JValue)
  | .jarr xs => some xs
  | _ => none

/-! ### Line splitting (Rust str::lines / BufRead::lines) -/

/-- Strip one trailing carriage return (the \r of a \r\n terminator). -/
def strip_cr (l : List Char) : List Char :=
  if l.getLast? = some '\r' then l.dropLast else l

/-- Worker for rust_lines: accumulate the current line in reverse. -/
def rust_lines_go : List Char → List Char → List (List Char)
  | [], acc => if acc = [] then [] else [acc.reverse]
  | c :: rest, acc =>
    if c = '\n' then strip_cr acc.reverse :: rust_lines_go rest []
    else rust_lines_go rest (c :: acc)

/-- Rust str::lines / BufRead::lines: split at newlines, strip \r\n,
no trailing empty line after a final newline. -/
def rust_lines (content : List Char) : List (List Char) :=
  rust_lines_go content []

/-! ### src/main.rs: normalize_summary -/

/-- normalize_summary from src/main.rs: collapse whitespace, strip leading
markdown markers, truncate at a word boundary past the halfway point.
(Indices are character-counted; the source counts bytes when locating the
last space, which agrees on ASCII.) -/
def normalize_summary (text : String) (max_chars : Nat) : String :=
  let normalized := join_sep ' ' (split_ws text.data)
  let stripped := (normalized.dropWhile (fun c => c == '#' || c == '*')).dropWhile Char.isWhitespace
  if stripped.length ≤ max_chars then String.mk stripped
  else
    let truncated := stripped.take max_chars
    let break_point :=
      match last_idx_of ' ' truncated with
      | some i => if max_chars / 2 < i then i else truncated.length
      | none => truncated.length
    String.mk (truncated.take break_point ++ "...".data)

/-! ### src/claude_code.rs: text extraction from message payloads -/

/-- extract_text_content: first text of a message content value
(plain string, or first "text" block of an array). -/
def extract_text_content (content : JValue) : Option String :=
  match content.as_str with
  | some s => some s
  | none =>
    match content.as_array with
    | none => none
    | some xs =>
      xs.findSome? (fun c =>
        match (c.get "type").bind JValue.as_str with
        | some t => if t = "text" then (c.get "text").bind JValue.as_str else none
        | none => none)

/-- extract_message_text_for_search: join ALL text blocks of
entry.message.content (space-separated), none when there is none. -/
def extract_message_text_for_search (entry : JValue) : Option String :=
  match (entry.get "message").bind (fun m => m.get "content") with
  | none => none
  | some content =>
    match content.as_str with
    | some s => some s
    | none =>
      match content.as_array with
      | none => none
      | some arr =>
        let texts := arr.filterMap (fun c =>
          match (c.get "type").bind JValue.as_str with
          | some t => if t = "text" then (c.get "text").bind JValue.as_str else none
          | none => none)
        if texts = [] then none else some (String.intercalate " " texts)

/-! ### src/claude_code.rs: single-pass scanner -/

/-- Metadata extracted from a session file head. -/
structure HeadMetadata where
  project_path : String
  first_prompt : Option String
  forked_from : Option String

/-- Internal scanner accumulator (search text kept as chunks). -/
structure ScanState where
  head : HeadMetadata
  turn_count : Nat
  search_chunks : List String

/-- Output of the single-pass scan over a session file. -/
structure HeadTurnSearchScan where
  head : HeadMetadata
  turn_count : Nat
  search_text_lower : String

/-- Initial scanner state (HeadMetadata::default, zero turns, no chunks). -/
def scan_init : ScanState :=
  ⟨⟨"", none, none⟩, 0, []⟩

/-- One parsed record of the scan loop body of scan_head_turns_and_search. -/
def scan_step (st : ScanState) (entry : JValue) : ScanState :=
  let entry_type := (entry.get "type").bind JValue.as_str
  let st :=
    if st.head.project_path = "" then
      match (entry.get "cwd").bind JValue.as_str with
      | some cwd => { st with head := { st.head with project_path := cwd } }
      | none => st
    else st
  let st :=
    if st.head.forked_from = none then
      match ((entry.get "forkedFrom").bind (fun f => f.get "sessionId")).bind JValue.as_str with
      | some pid => { st with head := { st.head with forked_from := some pid } }
      | none => st
    else st
  let st :=
    if st.head.first_prompt = none ∧ entry_type = some "user" then
      match (entry.get "message").bind (fun m => m.get "content") with
      | some content =>
        match extract_text_content content with
        | some text =>
          if is_first_prompt_candidate text then
            { st with head := { st.head with first_prompt := some (normalize_summary text 50) } }
          else st
        | none => st
      | none => st
    else st
  let st :=
    if entry_type = some "user" then
      match (entry.get "message").bind (fun m => m.get "content") with
      | some content =>
        match extract_text_content content with
        | some text =>
          if counts_as_turn text then { st with turn_count := st.turn_count + 1 } else st
        | none => st
      | none => st
    else st
  if entry_type = some "user" ∨ entry_type = some "assistant" then
    match extract_message_text_for_search entry with
    | some text =>
      if text ≠ "" then { st with search_chunks := st.search_chunks ++ [text] } else st
    | none => st
  else st

/-- Join the search chunks and lowercase (end of scan_head_turns_and_search). -/
def scan_finalize (st : ScanState) : HeadTurnSearchScan :=
  ⟨st.head, st.turn_count, to_lowercase (String.intercalate "\n" st.search_chunks)⟩

/-- The scan loop over raw lines: parse each line, skip it on failure. -/
def scan_lines (parse : List Char → Option JValue) (lines : List (List Char)) : ScanState :=
  lines.foldl
    (fun st line =>
      match parse line with
      | some entry => scan_step st entry
      | none => st)
    scan_init

/-- The same scan over already-parsed records only. -/
def scan_entries (entries : List JValue) : ScanState :=
  entries.foldl scan_step scan_init

/-- scan_head_turns_and_search from src/claude_code.rs: single pass over
the file lines collecting head metadata, turn count and search text. -/
def scan_head_turns_and_search (parse : List Char → Option JValue) (content : List Char) :
    HeadTurnSearchScan :=
  scan_finalize (scan_lines parse (rust_lines content))

/-! ### src/claude_code.rs: tail reader -/

/-- Drop everything up to and including the first newline, none when the
text has no newline (models str::find followed by slicing). -/
def drop_through_newline : List Char → Option (List Char)
  | [] => none
  | c :: rest => if c = '\n' then some rest else drop_through_newline rest

/-- The line scan of read_summary_from_tail: the FIRST record parsing with
type "summary" decides the result (its summary field, possibly absent). -/
def first_summary_scan (parse : List Char → Option JValue) : List (List Char) → Option String
  | [] => none
  | l :: rest =>
    match parse l with
    | some entry =>
      if (entry.get "type").bind JValue.as_str = some "summary" then
        (entry.get "summary").bind JValue.as_str
      else first_summary_scan parse rest
    | none => first_summary_scan parse rest

/-- TAIL_SIZE constant of read_summary_from_tail (16 KiB). -/
def TAIL_SIZE : Nat := 16 * 1024

/-- read_summary_from_tail from src/claude_code.rs: seek to the last 16KB,
drop the partial first line if the seek point is interior, return the
first summary-typed record's summary field. -/
def read_summary_from_tail (parse : List Char → Option JValue) (content : List Char) :
    Option String :=
  let len := content.length
  let start := len - TAIL_SIZE
  let tail := content.drop start
  let tail :=
    if 0 < start then
      match drop_through_newline tail with
      | some rest => rest
      | none => tail
    else tail
  first_summary_scan parse (rust_lines tail)

/-- Summary lookup in the words of the specification: seek to
max(0, file_length − W); when the seek point is not the file start,
discard everything up to and including the first newline (a no-op when the
window has no newline); scan the remainder for the first summary record. -/
def spec_summary_lookup (parse : List Char → Option JValue) (content : List Char) :
    Option String :=
  let start := (max 0 ((content.length : Int) - (TAIL_SIZE : Int))).toNat
  let window := content.drop start
  let window :=
    if start ≠ 0 then
      match drop_through_newline window with
      | some rest => rest
      | none => window
    else window
  first_summary_scan parse (rust_lines window)

/-- One position of the custom-title line matcher: the regex
"type"\s*:\s*"custom-title" anchored at the head of the suffix. -/
def custom_title_at (s : List Char) : Bool :=
  if "\"type\"".data.isPrefixOf s then
    match (s.drop 6).dropWhile Char.isWhitespace with
    | ':' :: rest => "\"custom-title\"".data.isPrefixOf (rest.dropWhile Char.isWhitespace)
    | _ => false
  else false

/-- Line matcher of find_custom_title: the line contains a match of the
regex "type"\s*:\s*"custom-title". -/
def line_matches_custom_title (s : List Char) : Bool :=
  s.tails.any custom_title_at

/-- find_custom_title from src/claude_code.rs: keep the LAST line matching
the custom-title pattern, then JSON-parse only that line and extract its
customTitle field. -/
def find_custom_title (parse : List Char → Option JValue) (content : List Char) :
    Option String :=
  let found_line := (rust_lines content).foldl
    (fun acc line => if line_matches_custom_title line then some line else acc) none
  match found_line with
  | none => none
  | some line => (parse line).bind (fun entry => (entry.get "customTitle").bind JValue.as_str)

/-- Custom-title lookup in the words of the specification: scan the entire
file for every line matching the custom-title pattern; take the last such
line; JSON-parse only it to extract the field. -/
def spec_custom_title_lookup (parse : List Char → Option JValue) (content : List Char) :
    Option String :=
  match ((rust_lines content).filter line_matches_custom_title).getLast? with
  | none => none
  | some line => (parse line).bind (fun entry => (entry.get "customTitle").bind JValue.as_str)

/-- Demo JSON line: an init-only record. -/
def demo_line_init : String := "\x7b\"type\":\"init\"\x7d"

/-- Demo JSON line: a summary record. -/
def demo_line_summary : String := "\x7b\"type\":\"summary\",\"summary\":\"Compacted session\"\x7d"

/-- Demo JSON line: a first custom-title record. -/
def demo_line_title1 : String := "\x7b\"type\":\"custom-title\",\"customTitle\":\"First title\"\x7d"

/-- Demo JSON line: a second custom-title record. -/
def demo_line_title2 : String := "\x7b\"type\":\"custom-title\",\"customTitle\":\"Second title\"\x7d"

/-- Concrete parse table standing in for serde_json on the demo lines. -/
def demo_parse (l : List Char) : Option JValue :=
  if l = demo_line_init.data then
    some (JValue.jobj [("type", JValue.jstr "init")])
  else if l = demo_line_summary.data then
    some (JValue.jobj [("type", JValue.jstr "summary"), ("summary", JValue.jstr "Compacted session")])
  else if l = demo_line_title1.data then
    some (JValue.jobj [("type", JValue.jstr "custom-title"), ("customTitle", JValue.jstr "First title")])
  else if l = demo_line_title2.data then
    some (JValue.jobj [("type", JValue.jstr "custom-title"), ("customTitle", JValue.jstr "Second title")])
  else none

/-- A file holding two custom-title records, the second one last. -/
def two_titles_content : List Char :=
  demo_line_title1.data ++ '\n' :: demo_line_title2.data

/-! ### src/claude_code.rs: path/UUID filter -/

/-- is_valid_session_uuid from src/claude_code.rs: five dash-separated
segments of lengths 8-4-4-4-12, all characters ASCII hex digits or dashes. -/
def is_valid_session_uuid (s : String) : Bool :=
  let parts := split_on_char '-' s.data
  decide (parts.length = 5) &&
  (parts.zip [8, 4, 4, 4, 12]).all (fun pl => decide (pl.1.length = pl.2)) &&
  s.data.all (fun ch => is_ascii_hexdigit ch || ch == '-')

/-- The canonical identifier shape in the specification's words: exactly
five dash-separated segments of lengths [8,4,4,4,12], each made of ASCII
hex digits. -/
def uuid_shape (s : List Char) : Prop :=
  ∃ p1 p2 p3 p4 p5 : List Char,
    s = p1 ++ '-' :: (p2 ++ '-' :: (p3 ++ '-' :: (p4 ++ '-' :: p5))) ∧
    p1.length = 8 ∧ p2.length = 4 ∧ p3.length = 4 ∧ p4.length = 4 ∧ p5.length = 12 ∧
    (∀ ch ∈ p1, is_ascii_hexdigit ch = true) ∧
    (∀ ch ∈ p2, is_ascii_hexdigit ch = true) ∧
    (∀ ch ∈ p3, is_ascii_hexdigit ch = true) ∧
    (∀ ch ∈ p4, is_ascii_hexdigit ch = true) ∧
    (∀ ch ∈ p5, is_ascii_hexdigit ch = true)

/-- Path segments between '/' separators, dropping empty and "." segments
(POSIX model of Rust Path::components). -/
def path_components (p : String) : List (List Char) :=
  (split_on_char '/' p.data).filter (fun seg => !(seg == [] || seg == ['.']))

/-- Rust Path::file_name: last component, none for a path ending in "..",
a root, or an empty path. -/
def file_name_model (p : String) : Option (List Char) :=
  match (path_components p).getLast? with
  | none => none
  | some seg => if seg = ['.', '.'] then none else some seg

/-- Split a file name into (stem, extension) at the last dot; no dot or a
leading-dot-only name yields no extension (Rust Path stem/extension rule). -/
def split_ext (name : List Char) : List Char × Option (List Char) :=
  match last_idx_of '.' name with
  | none => (name, none)
  | some 0 => (name, none)
  | some (i + 1) => (name.take (i + 1), some (name.drop (i + 2)))

/-- Rust Path::extension over the path model. -/
def path_extension (p : String) : Option (List Char) :=
  (file_name_model p).bind (fun n => (split_ext n).2)

/-- Rust Path::file_stem over the path model. -/
def path_file_stem (p : String) : Option (List Char) :=
  (file_name_model p).map (fun n => (split_ext n).1)

/-- is_valid_session_file from src/claude_code.rs: extension "jsonl", no
"/subagents/" substring in the path string, and a UUID-shaped stem. -/
def is_valid_session_file (p : String) : Bool :=
  if path_extension p ≠ some "jsonl".data then false
  else if contains_substr p.data "/subagents/".data then false
  else
    match path_file_stem p with
    | some stem => is_valid_session_uuid (String.mk stem)
    | none => false

/-- The session-file filter exactly as claimed: clause (b) requires that NO
path segment equals "subagents". -/
def claimed_session_file_filter (p : String) : Prop :=
  path_extension p = some "jsonl".data ∧
  (∀ seg ∈ split_on_char '/' p.data, seg ≠ "subagents".data) ∧
  (∃ stem, path_file_stem p = some stem ∧ uuid_shape stem)

/-- A relative path whose FIRST segment is "subagents": the source tests
for the substring "/subagents/", which requires a slash on both sides. -/
def subagents_relative_path : String :=
  "subagents/12345678-1234-1234-1234-123456789abc.jsonl"

/-! ### src/claude_code.rs: extract_project_name -/

/-- extract_project_name from src/claude_code.rs: last path segment of a
non-empty cwd (or "unknown" when that segment is empty); otherwise the
parent directory name with "-Users-<username>-" and the known path
prefixes stripped — with no fallback when the stripped result is empty. -/
def extract_project_name (project_path : String) (fallback_dir : String) : String :=
  if project_path ≠ "" then
    match (split_on_char '/' project_path.data).getLast? with
    | some seg => if seg = [] then "unknown" else String.mk seg
    | none => "unknown"
  else
    let stripped :=
      match strip_pref "-Users-".data fallback_dir.data with
      | some rest =>
        match split_once '-' rest with
        | some pr => pr.2
        | none => fallback_dir.data
      | none => fallback_dir.data
    match ["Documents-repos-", "Documents-", "repos-", "third-party-repos-"].findSome?
        (fun pre => strip_pref pre.data stripped) with
    | some r => String.mk r
    | none => String.mk stripped

/-- Display-name computation in the (amended) specification's words: for a
non-empty project path, the maximal '/'-free suffix, with "unknown" for an
empty suffix; for an empty project path, the ordered known-prefix strips
applied to the parent directory name, returned as-is even when empty. -/
def spec_display_name (project_path : String) (fallback_dir : String) : String :=
  if project_path = "" then
    let stripped :=
      match strip_pref "-Users-".data fallback_dir.data with
      | some rest =>
        match split_once '-' rest with
        | some pr => pr.2
        | none => fallback_dir.data
      | none => fallback_dir.data
    match ["Documents-repos-", "Documents-", "repos-", "third-party-repos-"].findSome?
        (fun pre => strip_pref pre.data stripped) with
    | some r => String.mk r
    | none => String.mk stripped
  else
    let seg := (project_path.data.reverse.takeWhile (fun d => !(d == '/'))).reverse
    if seg = [] then "unknown" else String.mk seg

/-! ### src/session.rs model and src/claude_code.rs session builder -/

/-- Origin of a session: the local machine or a named, cached remote. -/
inductive SessionSource where
  | Local
  | Remote (name : String) (host : String) (user : Option String)
deriving DecidableEq

/-- One immutable session record (the Session struct). -/
structure Session where
  id : String
  project : String
  project_path : String
  filepath : String
  created : Nat
  modified : Nat
  first_message : Option String
  summary : Option String
  name : Option String
  turn_count : Nat
  source : SessionSource
  forked_from : Option String
deriving DecidableEq

/-- One candidate session file as the discovery code sees it: its path,
its raw content and its filesystem timestamps (none when unavailable). -/
structure SessionFileInput where
  filepath : String
  content : List Char
  created : Option Nat
  modified : Option Nat

/-- Rust filepath.parent()?.file_name()? over the path model. -/
def path_parent_dir_name (p : String) : Option String :=
  match (path_components p).dropLast.getLast? with
  | none => none
  | some seg => if seg = ['.', '.'] then none else some (String.mk seg)

/-- extract_session_metadata from src/claude_code.rs: id from the file
stem, timestamps with fallbacks (a missing modified time is the epoch, a
missing created time falls back to modified), one scan pass, one tail
pass, and the empty-session filter. -/
def extract_session_metadata (parse : List Char → Option JValue) (f : SessionFileInput)
    (parent_dir_name : String) (source : SessionSource) : Option Session :=
  match path_file_stem f.filepath with
  | none => none
  | some stem =>
    let modified := f.modified.getD 0
    let created := f.created.getD modified
    let scan := scan_head_turns_and_search parse f.content
    let summary := read_summary_from_tail parse f.content
    let custom_title := find_custom_title parse f.content
    if scan.head.project_path = "" ∧ scan.head.first_prompt = none ∧ summary = none then
      none
    else
      some {
        id := String.mk stem
        project := extract_project_name scan.head.project_path parent_dir_name
        project_path := scan.head.project_path
        filepath := f.filepath
        created := created
        modified := modified
        first_message := scan.head.first_prompt
        summary := summary
        name := custom_title
        turn_count := scan.turn_count
        source := source
        forked_from := scan.head.forked_from }

/-- Comparator of the discovery sorts: a may precede b iff b.modified ≤
a.modified (Rust sort_by(|a, b| b.modified.cmp(&a.modified))). -/
def session_le (a b : Session) : Bool :=
  decide (b.modified ≤ a.modified)

/-- The stable sort by modified timestamp descending used by the locator
and the aggregator. -/
def sort_sessions_by_modified_desc (ss : List Session) : List Session :=
  ss.mergeSort session_le

/-- find_sessions_with_source from src/claude_code.rs: filter candidate
files, extract metadata per file, sort by modified descending. -/
def find_sessions_with_source (parse : List Char → Option JValue)
    (files : List SessionFileInput) (source : SessionSource) : List Session :=
  let jsonl_files := files.filter (fun f => is_valid_session_file f.filepath)
  let sessions := jsonl_files.filterMap (fun f =>
    match path_parent_dir_name f.filepath with
    | none => none
    | some pd => extract_session_metadata parse f pd source)
  sort_sessions_by_modified_desc sessions

/-! ### src/claude_code.rs: multi-source aggregator -/

/-- Failure details for a single session discovery source. -/
structure DiscoveryFailure where
  source_name : String
  reason : String
deriving DecidableEq

/-- Aggregated discovery outcome across local + remote sources. -/
structure DiscoverySummary where
  sessions : List Session
  failures : List DiscoveryFailure
deriving DecidableEq

/-- should_include_source from src/claude_code.rs. -/
def should_include_source (remote_filter : Option String) (source_name : String) : Bool :=
  match remote_filter with
  | none => true
  | some filter => source_name == filter

/-- One configured remote as the aggregator sees it: its name, host and
user from the config, whether its cache directory resolves and exists, and
the outcome of running the locator against that cache directory (the
locator call is abstracted by its Result). -/
structure RemoteEntry where
  name : String
  host : String
  user : Option String
  cache_exists : Bool
  discovery : Except String (List Session)

/-- The body of the remote loop of find_all_sessions_with_summary. -/
def aggregator_step (remote_filter : Option String) (acc : DiscoverySummary)
    (r : RemoteEntry) : DiscoverySummary :=
  if !should_include_source remote_filter r.name then acc
  else if remote_filter = some "local" then acc
  else if !r.cache_exists then acc
  else
    match r.discovery with
    | .ok ss => { acc with sessions := acc.sessions ++ ss }
    | .error e => { acc with failures := acc.failures ++ [⟨r.name, e⟩] }

/-- find_all_sessions_with_summary from src/claude_code.rs: local sessions
(when the local root exists and passes the filter), then every configured
remote in order, then one final sort by modified descending. -/
def find_all_sessions_with_summary (remote_filter : Option String) (local_dir_exists : Bool)
    (local_sessions : List Session) (remotes : List RemoteEntry) : DiscoverySummary :=
  let base : List Session :=
    if should_include_source remote_filter "local" && local_dir_exists then local_sessions
    else []
  let summ := remotes.foldl (aggregator_step remote_filter) ⟨base, []⟩
  ⟨sort_sessions_by_modified_desc summ.sessions, summ.failures⟩

/-- A remote is processed at all iff it passes the source filter, the
filter is not "local", and its cache directory exists. -/
def remote_contributes (remote_filter : Option String) (r : RemoteEntry) : Bool :=
  should_include_source remote_filter r.name &&
    !(decide (remote_filter = some "local")) && r.cache_exists

/-- The failures the remote loop accumulates, in configuration order. -/
def remote_failures (remote_filter : Option String) (remotes : List RemoteEntry) :
    List DiscoveryFailure :=
  remotes.filterMap (fun r =>
    if remote_contributes remote_filter r then
      match r.discovery with
      | .error e => some ⟨r.name, e⟩
      | .ok _ => none
    else none)

/-- The remote sessions the loop accumulates, in configuration order. -/
def remote_sessions (remote_filter : Option String) (remotes : List RemoteEntry) :
    List Session :=
  (remotes.filterMap (fun r =>
    if remote_contributes remote_filter r then
      match r.discovery with
      | .ok ss => some ss
      | .error _ => none
    else none)).flatten

/-! ### Concrete session files for the builder claims -/

/-- A candidate session file whose only record is an init line. -/
def init_only_file : SessionFileInput :=
  ⟨"p/12345678-1234-1234-1234-123456789abc.jsonl", demo_line_init.data, some 5, some 10⟩

/-- A candidate session file whose only record is a summary line. -/
def summary_only_file : SessionFileInput :=
  ⟨"p/12345678-1234-1234-1234-123456789abc.jsonl", demo_line_summary.data, some 5, some 10⟩

/-- A configured remote that has never synced (no cache directory). -/
def demo_remote_missing_cache : RemoteEntry :=
  ⟨"laptop", "laptop.example", none, false, Except.ok []⟩

/-- A configured remote whose cache exists but whose discovery errors. -/
def demo_remote_error : RemoteEntry :=
  ⟨"devbox", "devbox.example", none, true, Except.error "cache unreadable"⟩

/-! ### src/interactive_state.rs: navigation state machine -/

/-- Navigation state: optional search pattern and result set, and the
focus stack (top = last element, as in the Vec of the source). -/
structure InteractiveState where
  search_pattern : Option String
  search_results : Option (List String)
  focus_stack : List String
deriving DecidableEq

/-- User actions fed to the reducer (the Action enum of the source). -/
inductive NavAction where
  | Esc
  | CtrlS (query : String)
  | ApplySearchResults (pattern : String) (matched_ids : List String)
  | Right (selected_id : Option String) (has_children : Bool)
  | Left
  | Enter (selected_id : Option String)

/-- Effects the reducer requests from its caller. -/
inductive Effect where
  | Continue
  | Exit
  | RunSearch (pattern : String)
  | Select (session_id : String)
deriving DecidableEq

/-- InteractiveState::apply from src/interactive_state.rs, as a pure
function state → action → (state, effect). -/
def InteractiveState.apply (st : InteractiveState) (a : NavAction) : InteractiveState × Effect :=
  match a with
  | .Esc =>
    if st.search_results.isSome then
      ({ st with search_results := none, search_pattern := none }, .Continue)
    else if st.focus_stack ≠ [] then
      ({ st with focus_stack := [] }, .Continue)
    else (st, .Exit)
  | .CtrlS query =>
    let query := query.trim
    if query = "" then (st, .Continue)
    else (st, .RunSearch query)
  | .ApplySearchResults pattern matched_ids =>
    ({ st with search_pattern := some pattern, search_results := some matched_ids },
      .Continue)
  | .Right selected_id has_children =>
    match selected_id with
    | none => (st, .Continue)
    | some sel =>
      let already_focused := (st.focus_stack.getLast?.map (fun f => f == sel)).getD false
      if has_children && !already_focused then
        ({ st with focus_stack := st.focus_stack ++ [sel] }, .Continue)
      else (st, .Continue)
  | .Left => ({ st with focus_stack := st.focus_stack.dropLast }, .Continue)
  | .Enter selected_id =>
    match selected_id with
    | none => (st, .Continue)
    | some sel => (st, .Select sel)

/-- A state with both an active search and a non-empty focus stack. -/
def demo_nav_state : InteractiveState :=
  ⟨some "api", some ["a"], ["root"]⟩

/-! ### Theorems -/

/-- A "[Request"-prefixed text starts with a bracket. -/
theorem starts_with_request_bracket (t : String)
    (h : starts_with_str t "[Request" = true) : starts_with_char t '[' = true := by
  unfold starts_with_str at h
  rw [List.isPrefixOf_iff_prefix] at h
  obtain ⟨ts, hts⟩ := h
  have hh : ("[Request".data ++ ts).head? = some '[' := rfl
  rw [hts] at hh
  unfold starts_with_char
  cases hd : t.data with
  | nil => rw [hd] at hh; simp at hh
  | cons a as =>
    rw [hd] at hh
    simp at hh
    simp [hh]

/-- C1: counts_as_turn holds iff the text is non-empty and does not start
with '/', '<', or '['; is_first_prompt_candidate holds iff the text is
non-empty and does not start with '/', '<', or the literal "[Request"; a
text starting with '[' but not "[Request" (e.g. "[tool output]") is a
first-prompt candidate yet does not count as a turn. -/
theorem c1_turn_vs_first_prompt_predicates :
    (∀ text : String,
      counts_as_turn text = true ↔
        (text ≠ "" ∧ starts_with_char text '/' = false ∧
          starts_with_char text '<' = false ∧ starts_with_char text '[' = false)) ∧
    (∀ text : String,
      is_first_prompt_candidate text = true ↔
        (text ≠ "" ∧ starts_with_char text '/' = false ∧
          starts_with_char text '<' = false ∧ starts_with_str text "[Request" = false)) ∧
    is_first_prompt_candidate "[tool output]" = true ∧
    counts_as_turn "[tool output]" = false := by
  refine ⟨fun text => ?_, fun text => ?_, by decide, by decide⟩
  · unfold counts_as_turn classify_user_text_for_metrics
    split_ifs with h1 h2 h3 h4 <;> simp_all
  · unfold is_first_prompt_candidate
    split_ifs with h1 <;> simp_all [and_assoc]

/-- C10: every text that counts as a conversation turn is also eligible as
a first prompt, and the inclusion is strict, witnessed by a
bracket-prefixed text that does not start with "[Request". -/
theorem c10_turns_subset_of_first_prompt_candidates :
    (∀ text : String, counts_as_turn text = true → is_first_prompt_candidate text = true) ∧
    is_first_prompt_candidate "[tool output]" = true ∧
    counts_as_turn "[tool output]" = false := by
  refine ⟨fun text h => ?_, by decide, by decide⟩
  unfold counts_as_turn classify_user_text_for_metrics at h
  unfold is_first_prompt_candidate
  split_ifs at h with h1 h2 h3 h4 <;> simp_all
  cases hb : starts_with_str text "[Request" with
  | false => rfl
  | true => exact absurd (starts_with_request_bracket text hb) (by simp [h4])

/-- C10 witness: the subset theorem applied at the concrete turn "hello". -/
theorem c10_witness :
    counts_as_turn "hello" = true ∧ is_first_prompt_candidate "hello" = true :=
  ⟨by decide, c10_turns_subset_of_first_prompt_candidates.1 "hello" (by decide)⟩

/-- The skip-on-parse-failure fold equals the fold over parsed records. -/
theorem scan_fold_eq_filterMap (parse : List Char → Option JValue) :
    ∀ (lines : List (List Char)) (st : ScanState),
      lines.foldl
        (fun st line =>
          match parse line with
          | some entry => scan_step st entry
          | none => st)
        st
      = (lines.filterMap parse).foldl scan_step st := by
  intro lines
  induction lines with
  | nil => intro st; rfl
  | cons l ls ih =>
    intro st
    cases h : parse l <;> simp [List.filterMap_cons, h, ih]

/-- C5: the single-pass scanner never fails on an unparsable line; its
whole output equals the output computed over the subsequence of
successfully parsed lines, and deleting a malformed line from the stream
does not change the scan of the remaining lines. -/
theorem c5_scanner_absorbs_malformed_lines :
    (∀ (parse : List Char → Option JValue) (content : List Char),
      scan_head_turns_and_search parse content
        = scan_finalize (scan_entries ((rust_lines content).filterMap parse))) ∧
    (∀ (parse : List Char → Option JValue) (pre post : List (List Char)) (bad : List Char),
      parse bad = none →
        scan_lines parse (pre ++ bad :: post) = scan_lines parse (pre ++ post)) := by
  constructor
  · intro parse content
    unfold scan_head_turns_and_search scan_lines scan_entries
    rw [scan_fold_eq_filterMap]
  · intro parse pre post bad h
    unfold scan_lines
    rw [scan_fold_eq_filterMap, scan_fold_eq_filterMap]
    simp [List.filterMap_append, List.filterMap_cons, h]

/-- C5 witness: the malformed-line-deletion part applied at a concrete
stream where the parser rejects the empty line. -/
theorem c5_witness :
    (fun _ : List Char => (none : Option JValue)) [] = none ∧
    scan_lines (fun _ => none) ([] ++ [] :: []) = scan_lines (fun _ => none) ([] ++ []) :=
  ⟨rfl, c5_scanner_absorbs_malformed_lines.2 (fun _ => none) [] [] [] rfl⟩

/-- A keep-the-last-match left fold equals the last element of the filter. -/
theorem foldl_last_match {α : Type} (p : α → Bool) :
    ∀ (ls : List α) (acc : Option α),
      ls.foldl (fun acc x => if p x then some x else acc) acc
        = match (ls.filter p).getLast? with
          | some y => some y
          | none => acc := by
  intro ls
  induction ls with
  | nil => intro acc; rfl
  | cons x xs ih =>
    intro acc
    by_cases h : p x
    · rw [List.foldl_cons, if_pos h, ih, List.filter_cons_of_pos h]
      cases hl : (xs.filter p).getLast? with
      | none =>
        have hnil : xs.filter p = [] := List.getLast?_eq_none_iff.mp hl
        rw [hnil]
        simp
      | some y =>
        rcases hne : xs.filter p with _ | ⟨z, zs⟩
        · rw [hne] at hl; cases hl
        · rw [hne] at hl
          rw [List.getLast?_cons_cons, hl]
    · rw [List.foldl_cons, if_neg h, ih, List.filter_cons_of_neg h]

/-- Unfolding equation for split_on_char on a cons cell. -/
theorem split_on_char_cons (c d : Char) (rest : List Char) :
    split_on_char c (d :: rest) =
      if d = c then [] :: split_on_char c rest
      else (split_on_char c rest).modifyHead (fun l => d :: l) := rfl

/-- split_on_char never returns an empty list of pieces. -/
theorem split_on_char_ne_nil (c : Char) : ∀ l : List Char, split_on_char c l ≠ [] := by
  intro l
  induction l with
  | nil => simp [split_on_char]
  | cons d rest ih =>
    unfold split_on_char
    by_cases h : d = c
    · simp [h]
    · rw [if_neg h]
      cases hs : split_on_char c rest with
      | nil => exact absurd hs ih
      | cons y ys => simp

/-- Joining the split with the separator restores the original list. -/
theorem join_sep_split (c : Char) : ∀ l : List Char, join_sep c (split_on_char c l) = l := by
  intro l
  induction l with
  | nil => rfl
  | cons d rest ih =>
    unfold split_on_char
    by_cases h : d = c
    · rw [if_pos h]
      cases hs : split_on_char c rest with
      | nil => exact absurd hs (split_on_char_ne_nil c rest)
      | cons y ys =>
        rw [hs] at ih
        simp [join_sep, ih, h]
    · rw [if_neg h]
      cases hs : split_on_char c rest with
      | nil => exact absurd hs (split_on_char_ne_nil c rest)
      | cons y ys =>
        rw [hs] at ih
        cases ys with
        | nil => simp_all [join_sep]
        | cons z zs =>
          simp only [List.modifyHead, join_sep] at ih ⊢
          rw [List.cons_append, ih]

/-- Pieces produced by split_on_char never contain the separator. -/
theorem not_mem_of_mem_split (c : Char) :
    ∀ (l part : List Char), part ∈ split_on_char c l → c ∉ part := by
  intro l
  induction l with
  | nil =>
    intro part h
    simp [split_on_char] at h
    simp [h]
  | cons d rest ih =>
    intro part h
    unfold split_on_char at h
    by_cases hd : d = c
    · rw [if_pos hd] at h
      rcases List.mem_cons.mp h with h1 | h1
      · simp [h1]
      · exact ih part h1
    · rw [if_neg hd] at h
      cases hs : split_on_char c rest with
      | nil => exact absurd hs (split_on_char_ne_nil c rest)
      | cons y ys =>
        rw [hs] at h
        simp only [List.modifyHead] at h
        rcases List.mem_cons.mp h with h1 | h1
        · subst h1
          have hy : c ∉ y := ih y (by rw [hs]; exact List.mem_cons_self y ys)
          simp [List.mem_cons, hy]
          intro hq
          exact hd hq.symm
        · exact ih part (by rw [hs]; exact List.mem_cons_of_mem y h1)

/-- A separator-free list splits into a single piece. -/
theorem split_of_not_mem (c : Char) :
    ∀ l : List Char, c ∉ l → split_on_char c l = [l] := by
  intro l
  induction l with
  | nil => intro _; rfl
  | cons d rest ih =>
    intro h
    have hd : d ≠ c := fun hq => h (by simp [hq])
    have hrest : c ∉ rest := fun hq => h (List.mem_cons_of_mem d hq)
    unfold split_on_char
    rw [if_neg hd, ih hrest]
    rfl

/-- Splitting a list that starts with a separator-free piece followed by
the separator peels off exactly that piece. -/
theorem split_append_cons (c : Char) :
    ∀ (a b : List Char), c ∉ a → split_on_char c (a ++ c :: b) = a :: split_on_char c b := by
  intro a
  induction a with
  | nil =>
    intro b _
    simp [split_on_char]
  | cons d as ih =>
    intro b h
    have hd : d ≠ c := fun hq => h (by simp [hq])
    have has : c ∉ as := fun hq => h (List.mem_cons_of_mem d hq)
    show split_on_char c (d :: (as ++ c :: b)) = (d :: as) :: split_on_char c b
    rw [split_on_char_cons, if_neg hd, ih b has]
    rfl

/-- The UUID validator recognises exactly the canonical identifier shape. -/
theorem uuid_valid_iff_shape (s : String) :
    is_valid_session_uuid s = true ↔ uuid_shape s.data := by
  constructor
  · intro h
    unfold is_valid_session_uuid at h
    simp only [Bool.and_eq_true, List.all_eq_true, decide_eq_true_eq, Bool.or_eq_true] at h
    obtain ⟨⟨h1, h2⟩, h3⟩ := h
    rcases hs : split_on_char '-' s.data with _ | ⟨p1, _ | ⟨p2, _ | ⟨p3, _ | ⟨p4, _ | ⟨p5, rest⟩⟩⟩⟩⟩ <;>
      rw [hs] at h1 <;> simp [List.length_cons] at h1
    subst h1
    have heq : s.data = p1 ++ '-' :: (p2 ++ '-' :: (p3 ++ '-' :: (p4 ++ '-' :: p5))) := by
      have hj := join_sep_split '-' s.data
      rw [hs] at hj
      simpa [join_sep] using hj.symm
    have hmem : ∀ part ∈ [p1, p2, p3, p4, p5], ∀ ch ∈ part, is_ascii_hexdigit ch = true := by
      intro part hp ch hc
      have hdash : '-' ∉ part := not_mem_of_mem_split '-' s.data part (by rw [hs]; exact hp)
      have hch : ch ∈ s.data := by
        rw [heq]
        fin_cases hp <;> simp [hc]
      rcases h3 ch hch with hx | hx
      · exact hx
      · exfalso
        rw [eq_of_beq hx] at hc
        exact hdash hc
    rw [hs] at h2
    have hz : List.zip (p1 :: p2 :: p3 :: p4 :: p5 :: []) ([8, 4, 4, 4, 12] : List Nat)
        = [(p1, 8), (p2, 4), (p3, 4), (p4, 4), (p5, 12)] := rfl
    rw [hz] at h2
    exact ⟨p1, p2, p3, p4, p5, heq,
      h2 (p1, 8) (by simp), h2 (p2, 4) (by simp), h2 (p3, 4) (by simp),
      h2 (p4, 4) (by simp), h2 (p5, 12) (by simp),
      hmem p1 (by simp), hmem p2 (by simp), hmem p3 (by simp),
      hmem p4 (by simp), hmem p5 (by simp)⟩
  · rintro ⟨p1, p2, p3, p4, p5, heq, l1, l2, l3, l4, l5, h1, h2, h3, h4, h5⟩
    have hnd : ∀ (part : List Char), (∀ ch ∈ part, is_ascii_hexdigit ch = true) → '-' ∉ part := by
      intro part hall hmem
      have := hall '-' hmem
      simp [is_ascii_hexdigit] at this
    have hsplit : split_on_char '-' s.data = [p1, p2, p3, p4, p5] := by
      rw [heq]
      rw [split_append_cons '-' p1 _ (hnd p1 h1)]
      rw [split_append_cons '-' p2 _ (hnd p2 h2)]
      rw [split_append_cons '-' p3 _ (hnd p3 h3)]
      rw [split_append_cons '-' p4 _ (hnd p4 h4)]
      rw [split_of_not_mem '-' p5 (hnd p5 h5)]
    unfold is_valid_session_uuid
    simp only [Bool.and_eq_true, List.all_eq_true, decide_eq_true_eq, Bool.or_eq_true]
    refine ⟨⟨by rw [hsplit]; rfl, ?_⟩, ?_⟩
    · rw [hsplit]
      intro pl hpl
      have hz : List.zip ([p1, p2, p3, p4, p5]) ([8, 4, 4, 4, 12] : List Nat)
          = [(p1, 8), (p2, 4), (p3, 4), (p4, 4), (p5, 12)] := rfl
      rw [hz] at hpl
      simp only [List.mem_cons, List.not_mem_nil, or_false] at hpl
      rcases hpl with h | h | h | h | h <;> subst h <;> simp [l1, l2, l3, l4, l5]
    · intro ch hch
      rw [heq] at hch
      simp only [List.mem_append, List.mem_cons] at hch
      rcases hch with h | h | h | h | h | h | h | h | h
      · simp [h1 ch h]
      · simp [h]
      · simp [h2 ch h]
      · simp [h]
      · simp [h3 ch h]
      · simp [h]
      · simp [h4 ch h]
      · simp [h]
      · simp [h5 ch h]

/-- C4 counterexample: on a relative path whose first segment is
"subagents" the filter accepts (the "/subagents/" substring test does not
fire), while the claimed no-segment-equals-"subagents" clause rejects. -/
theorem c4_counterexample :
    ¬ (is_valid_session_file subagents_relative_path = true ↔
        claimed_session_file_filter subagents_relative_path) := by
  intro h
  have hcode : is_valid_session_file subagents_relative_path = true := by decide
  have hclaim := h.mp hcode
  have hseg := hclaim.2.1 "subagents".data (by decide)
  exact hseg rfl

/-- C4 amended: the filter returns true iff the extension is exactly
"jsonl", the path string does not contain the substring "/subagents/"
(so a leading relative "subagents" segment is NOT excluded), and the stem
has the canonical five-segment 8-4-4-4-12 hex shape; the stem
"sessions-index" is rejected. -/
theorem c4_session_file_filter_amended :
    (∀ p : String,
      is_valid_session_file p = true ↔
        (path_extension p = some "jsonl".data ∧
         contains_substr p.data "/subagents/".data = false ∧
         ∃ stem, path_file_stem p = some stem ∧ uuid_shape stem)) ∧
    is_valid_session_uuid "sessions-index" = false := by
  refine ⟨fun p => ?_, by decide⟩
  unfold is_valid_session_file
  split_ifs with h1 h2
  · simp only [ne_eq, not_not] at h1
    constructor
    · intro h; cases h
    · rintro ⟨hext, _, _⟩
      exact absurd hext (by simpa using h1)
  · constructor
    · intro h; cases h
    · rintro ⟨_, hsub, _⟩
      rw [h2] at hsub
      cases hsub
  · simp only [ne_eq, not_not] at h1
    cases hstem : path_file_stem p with
    | none =>
      constructor
      · intro h; cases h
      · rintro ⟨_, _, stem, hsome, _⟩
        cases hsome
    | some st =>
      rw [uuid_valid_iff_shape]
      constructor
      · intro hshape
        exact ⟨h1, by simpa using h2, st, rfl, by simpa using hshape⟩
      · rintro ⟨_, _, stem, hsome, hshape⟩
        injection hsome with hx
        subst hx
        exact hshape

/-- takeWhile over an append stops inside the first part when that part
has a failing element. -/
theorem takeWhile_append_stop {p : Char → Bool} :
    ∀ (xs ys : List Char), (∃ x ∈ xs, p x = false) →
      (xs ++ ys).takeWhile p = xs.takeWhile p := by
  intro xs
  induction xs with
  | nil =>
    intro ys h
    rcases h with ⟨x, hx, _⟩
    cases hx
  | cons a as ih =>
    intro ys h
    by_cases hpa : p a = true
    · have hex : ∃ x ∈ as, p x = false := by
        rcases h with ⟨x, hx, hpx⟩
        rcases List.mem_cons.mp hx with rfl | hmem
        · rw [hpa] at hpx; cases hpx
        · exact ⟨x, hmem, hpx⟩
      simp [List.takeWhile_cons, hpa, ih ys hex]
    · have hfa : p a = false := by simpa using hpa
      simp [List.takeWhile_cons, hfa]

/-- takeWhile ignores a trailing failing element. -/
theorem takeWhile_append_last {p : Char → Bool} (xs : List Char) (y : Char)
    (hy : p y = false) : (xs ++ [y]).takeWhile p = xs.takeWhile p := by
  by_cases hall : ∀ x ∈ xs, p x = true
  · rw [List.takeWhile_append_of_pos hall]
    simp [List.takeWhile_cons, hy, List.takeWhile_eq_self_iff.mpr hall]
  · push_neg at hall
    rcases hall with ⟨x, hx, hpx⟩
    exact takeWhile_append_stop xs [y] ⟨x, hx, by simpa using hpx⟩

/-- The last piece of split_on_char is the maximal separator-free suffix
(what Rust rsplit(sep).next() yields). -/
theorem split_getLast_eq (c : Char) :
    ∀ l : List Char,
      (split_on_char c l).getLast?
        = some ((l.reverse.takeWhile (fun d => !(d == c))).reverse) := by
  intro l
  induction l with
  | nil => rfl
  | cons d rest ih =>
    have hpc : (fun d => !(d == c)) c = false := by simp
    rw [split_on_char_cons]
    by_cases hd : d = c
    · rw [if_pos hd]
      subst hd
      rcases hne : split_on_char d rest with _ | ⟨y, ys⟩
      · exact absurd hne (split_on_char_ne_nil d rest)
      · rw [List.getLast?_cons_cons, ← hne, ih, List.reverse_cons,
          takeWhile_append_last rest.reverse d (by simp)]
    · rw [if_neg hd]
      rcases hne : split_on_char c rest with _ | ⟨y, ys⟩
      · exact absurd hne (split_on_char_ne_nil c rest)
      · rw [List.modifyHead_cons]
        cases ys with
        | nil =>
          have hyrest : y = rest := by
            have hj := join_sep_split c rest
            rw [hne] at hj
            simpa [join_sep] using hj
          subst hyrest
          have hnotc : c ∉ y :=
            not_mem_of_mem_split c y y (by rw [hne]; simp)
          have hall : ∀ x ∈ y.reverse, (fun d => !(d == c)) x = true := by
            intro x hx
            have hxy : x ∈ y := List.mem_reverse.mp hx
            have hxc : x ≠ c := fun hq => hnotc (hq ▸ hxy)
            simp [hxc]
          have hrw : ((d :: y).reverse.takeWhile (fun d => !(d == c))).reverse = d :: y := by
            rw [List.reverse_cons, List.takeWhile_append_of_pos hall]
            simp [List.takeWhile_cons, hd]
          rw [hrw]
          simp
        | cons z zs =>
          have hc_mem : c ∈ rest := by
            by_contra hnc
            have hone := split_of_not_mem c rest hnc
            rw [hne] at hone
            simp at hone
          rw [List.getLast?_cons_cons,
            show (z :: zs).getLast? = (y :: z :: zs).getLast? from
              (List.getLast?_cons_cons).symm,
            ← hne, ih, List.reverse_cons,
            takeWhile_append_stop rest.reverse [d] ⟨c, List.mem_reverse.mpr hc_mem, hpc⟩]

/-- C9 counterexample: with an empty project path and parent directory
"-Users-a-Documents-" the known-prefix strips leave the empty string, and
the code returns "" rather than the claimed "unknown" fallback. -/
theorem c9_counterexample :
    extract_project_name "" "-Users-a-Documents-" = "" ∧ ("" : String) ≠ "unknown" := by
  exact ⟨by decide, by decide⟩

/-- C9 amended: when project_path is non-empty the display name is its
last path segment with "unknown" for an empty segment; when project_path
is empty the ordered known-prefix strips are applied to the parent
directory name and the result is returned as-is, with no "unknown"
fallback for an empty result. -/
theorem c9_project_name_amended :
    ∀ (project_path fallback_dir : String),
      extract_project_name project_path fallback_dir
        = spec_display_name project_path fallback_dir := by
  intro project_path fallback_dir
  unfold extract_project_name spec_display_name
  by_cases h : project_path = ""
  · rw [if_neg (by simpa using h), if_pos h]
  · rw [if_pos (by simpa using h), if_neg h]
    rw [split_getLast_eq]

/-- Closed form of the remote loop of the aggregator. -/
theorem aggregator_foldl_characterization (remote_filter : Option String) :
    ∀ (remotes : List RemoteEntry) (acc : DiscoverySummary),
      remotes.foldl (aggregator_step remote_filter) acc
        = ⟨acc.sessions ++ remote_sessions remote_filter remotes,
           acc.failures ++ remote_failures remote_filter remotes⟩ := by
  intro remotes
  induction remotes with
  | nil =>
    intro acc
    simp [remote_sessions, remote_failures]
  | cons r rs ih =>
    intro acc
    rw [List.foldl_cons, ih]
    unfold aggregator_step remote_sessions remote_failures remote_contributes
    by_cases h1 : should_include_source remote_filter r.name
    · by_cases h2 : remote_filter = some "local"
      · simp [h1, h2]
      · by_cases h3 : r.cache_exists
        · cases hd : r.discovery with
          | ok ss => simp [h1, h2, h3, hd, List.append_assoc]
          | error e => simp [h1, h2, h3, hd, List.append_assoc]
        · simp [h1, h2, h3]
    · simp [h1]

/-- Closed form of the whole aggregator. -/
theorem find_all_characterization (remote_filter : Option String) (local_dir_exists : Bool)
    (local_sessions : List Session) (remotes : List RemoteEntry) :
    find_all_sessions_with_summary remote_filter local_dir_exists local_sessions remotes
      = ⟨sort_sessions_by_modified_desc
            ((if should_include_source remote_filter "local" && local_dir_exists then
                local_sessions
              else []) ++ remote_sessions remote_filter remotes),
         remote_failures remote_filter remotes⟩ := by
  unfold find_all_sessions_with_summary
  dsimp only
  rw [aggregator_foldl_characterization]
  simp

/-- C6: the summary lookup returns the summary field of the first
summary-typed record found after seeking to max(0, file_length − W) and,
for an interior seek point, discarding through the first newline; the
custom-title lookup independently returns the value from the last
custom-title line anywhere in the file, so a file with two custom-title
records yields the second title. -/
theorem c6_tail_reader_lookups :
    (∀ (parse : List Char → Option JValue) (content : List Char),
      read_summary_from_tail parse content = spec_summary_lookup parse content) ∧
    (∀ (parse : List Char → Option JValue) (content : List Char),
      find_custom_title parse content = spec_custom_title_lookup parse content) ∧
    find_custom_title demo_parse two_titles_content = some "Second title" := by
  refine ⟨fun parse content => ?_, fun parse content => ?_, by decide⟩
  · unfold read_summary_from_tail spec_summary_lookup
    have h1 : (max 0 ((content.length : Int) - (TAIL_SIZE : Int))).toNat
        = content.length - TAIL_SIZE := by omega
    rw [h1]
    have h2 : (0 < content.length - TAIL_SIZE) ↔ (content.length - TAIL_SIZE ≠ 0) :=
      Nat.pos_iff_ne_zero
    simp only [h2]
  · unfold find_custom_title spec_custom_title_lookup
    rw [foldl_last_match]
    cases ((rust_lines content).filter line_matches_custom_title).getLast? <;> rfl

/-- C2: the session builder materializes a session iff at least one of
project_path, first_message, summary is non-empty; an init-only stream
yields no session; a single-summary stream yields exactly one session
carrying that summary value. -/
theorem c2_session_builder_materialization :
    (∀ (parse : List Char → Option JValue) (f : SessionFileInput)
        (parent_dir : String) (source : SessionSource),
      path_file_stem f.filepath ≠ none →
        (extract_session_metadata parse f parent_dir source ≠ none ↔
          ¬((scan_head_turns_and_search parse f.content).head.project_path = "" ∧
            (scan_head_turns_and_search parse f.content).head.first_prompt = none ∧
            read_summary_from_tail parse f.content = none))) ∧
    extract_session_metadata demo_parse init_only_file "spam-eggs" SessionSource.Local = none ∧
    (∃ sess,
      extract_session_metadata demo_parse summary_only_file "spam-eggs" SessionSource.Local
        = some sess ∧ sess.summary = some "Compacted session") := by
  refine ⟨fun parse f pd source hstem => ?_, by decide, ⟨_, rfl, rfl⟩⟩
  unfold extract_session_metadata
  cases hs : path_file_stem f.filepath with
  | none => exact absurd hs hstem
  | some stem =>
    dsimp only
    by_cases hcond :
        (scan_head_turns_and_search parse f.content).head.project_path = "" ∧
        (scan_head_turns_and_search parse f.content).head.first_prompt = none ∧
        read_summary_from_tail parse f.content = none
    · rw [if_pos hcond]
      simp [hcond]
    · rw [if_neg hcond]
      simp [hcond]

/-- C2 witness: the materialization criterion applied at the concrete
summary-only file. -/
theorem c2_witness :
    path_file_stem summary_only_file.filepath ≠ none ∧
    (extract_session_metadata demo_parse summary_only_file "spam-eggs" SessionSource.Local
        ≠ none ↔
      ¬((scan_head_turns_and_search demo_parse summary_only_file.content).head.project_path
            = "" ∧
        (scan_head_turns_and_search demo_parse summary_only_file.content).head.first_prompt
            = none ∧
        read_summary_from_tail demo_parse summary_only_file.content = none)) :=
  ⟨by decide,
    c2_session_builder_materialization.1 demo_parse summary_only_file "spam-eggs"
      SessionSource.Local (by decide)⟩

/-- Output of the discovery sort is pairwise descending in modified. -/
theorem sorted_sort_sessions (ss : List Session) :
    (sort_sessions_by_modified_desc ss).Pairwise
      (fun a b => b.modified ≤ a.modified) := by
  have h : (List.mergeSort ss session_le).Pairwise (fun a b => session_le a b = true) :=
    List.sorted_mergeSort
      (fun a b c hab hbc => by
        simp only [session_le, decide_eq_true_eq] at hab hbc ⊢
        omega)
      (fun a b => by
        simp only [session_le, Bool.or_eq_true, decide_eq_true_eq]
        omega)
      ss
  exact h.imp (fun hab => by simpa [session_le] using hab)

/-- C3: both single-source discovery and multi-source aggregation return
sessions sorted by modified timestamp descending: an earlier list entry
never has a strictly smaller modified timestamp than a later one. -/
theorem c3_discovery_sorted_desc :
    (∀ (parse : List Char → Option JValue) (files : List SessionFileInput)
        (source : SessionSource),
      (find_sessions_with_source parse files source).Pairwise
        (fun a b => b.modified ≤ a.modified)) ∧
    (∀ (remote_filter : Option String) (local_dir_exists : Bool)
        (local_sessions : List Session) (remotes : List RemoteEntry),
      (find_all_sessions_with_summary remote_filter local_dir_exists local_sessions
          remotes).sessions.Pairwise
        (fun a b => b.modified ≤ a.modified)) := by
  constructor
  · intro parse files source
    unfold find_sessions_with_source
    exact sorted_sort_sessions _
  · intro remote_filter local_dir_exists local_sessions remotes
    rw [find_all_characterization]
    exact sorted_sort_sessions _

/-- C7: a remote whose cache directory does not exist contributes neither
sessions nor a DiscoveryFailure; a remote whose cache exists but whose
discovery errors contributes exactly one DiscoveryFailure with its name
and reason, while the sessions of the local root and of all other remotes
are exactly those of the aggregation without it. -/
theorem c7_remote_failure_isolation :
    ∀ (remote_filter : Option String) (local_dir_exists : Bool)
      (local_sessions : List Session) (pre post : List RemoteEntry) (r : RemoteEntry),
      (r.cache_exists = false →
        find_all_sessions_with_summary remote_filter local_dir_exists local_sessions
            (pre ++ r :: post)
          = find_all_sessions_with_summary remote_filter local_dir_exists local_sessions
            (pre ++ post)) ∧
      (∀ e, r.cache_exists = true → r.discovery = Except.error e →
        should_include_source remote_filter r.name = true →
        remote_filter ≠ some "local" →
          (find_all_sessions_with_summary remote_filter local_dir_exists local_sessions
              (pre ++ r :: post)).sessions
            = (find_all_sessions_with_summary remote_filter local_dir_exists local_sessions
              (pre ++ post)).sessions ∧
          (find_all_sessions_with_summary remote_filter local_dir_exists local_sessions
              (pre ++ r :: post)).failures
            = remote_failures remote_filter pre
                ++ ⟨r.name, e⟩ :: remote_failures remote_filter post) := by
  intro remote_filter local_dir_exists local_sessions pre post r
  constructor
  · intro hc
    rw [find_all_characterization, find_all_characterization]
    have hnc : remote_contributes remote_filter r = false := by
      simp [remote_contributes, hc]
    have hsess : remote_sessions remote_filter (pre ++ r :: post)
        = remote_sessions remote_filter (pre ++ post) := by
      unfold remote_sessions
      simp [List.filterMap_append, List.filterMap_cons, hnc]
    have hfail : remote_failures remote_filter (pre ++ r :: post)
        = remote_failures remote_filter (pre ++ post) := by
      unfold remote_failures
      simp [List.filterMap_append, List.filterMap_cons, hnc]
    rw [hsess, hfail]
  · intro e hc hd hinc hnl
    have hyes : remote_contributes remote_filter r = true := by
      simp [remote_contributes, hc, hinc, hnl]
    constructor
    · rw [find_all_characterization, find_all_characterization]
      have hsess : remote_sessions remote_filter (pre ++ r :: post)
          = remote_sessions remote_filter (pre ++ post) := by
        unfold remote_sessions
        simp [List.filterMap_append, List.filterMap_cons, hyes, hd]
      rw [hsess]
    · rw [find_all_characterization]
      unfold remote_failures
      simp [List.filterMap_append, List.filterMap_cons, hyes, hd]

/-- C7 witness: the isolation theorem applied at one never-synced remote
and one erroring remote. -/
theorem c7_witness :
    demo_remote_missing_cache.cache_exists = false ∧
    demo_remote_error.cache_exists = true ∧
    demo_remote_error.discovery = Except.error "cache unreadable" ∧
    should_include_source none demo_remote_error.name = true ∧
    (none : Option String) ≠ some "local" ∧
    find_all_sessions_with_summary none true [] ([] ++ demo_remote_missing_cache :: [])
      = find_all_sessions_with_summary none true [] ([] ++ []) ∧
    (find_all_sessions_with_summary none true [] ([] ++ demo_remote_error :: [])).failures
      = remote_failures none []
          ++ ⟨demo_remote_error.name, "cache unreadable"⟩ :: remote_failures none [] :=
  ⟨rfl, rfl, rfl, rfl, by decide,
    (c7_remote_failure_isolation none true [] [] [] demo_remote_missing_cache).1 rfl,
    ((c7_remote_failure_isolation none true [] [] [] demo_remote_error).2
      "cache unreadable" rfl rfl rfl (by decide)).2⟩

/-- C8: Escape clears only the search when one is active (focus stack
untouched), else clears the whole focus stack when non-empty, else exits;
three consecutive Escapes from a state with both search and focus active
yield Continue, Continue, Exit. -/
theorem c8_escape_priority :
    (∀ st : InteractiveState, st.search_results.isSome = true →
      st.apply NavAction.Esc
          = ({ st with search_results := none, search_pattern := none }, Effect.Continue) ∧
        (st.apply NavAction.Esc).1.focus_stack = st.focus_stack) ∧
    (∀ st : InteractiveState, st.search_results = none → st.focus_stack ≠ [] →
      st.apply NavAction.Esc = ({ st with focus_stack := [] }, Effect.Continue)) ∧
    (∀ st : InteractiveState, st.search_results = none → st.focus_stack = [] →
      st.apply NavAction.Esc = (st, Effect.Exit)) ∧
    ((demo_nav_state.apply NavAction.Esc).2 = Effect.Continue ∧
      ((demo_nav_state.apply NavAction.Esc).1.apply NavAction.Esc).2 = Effect.Continue ∧
      (((demo_nav_state.apply NavAction.Esc).1.apply NavAction.Esc).1.apply NavAction.Esc).2
        = Effect.Exit) := by
  refine ⟨fun st h => ?_, fun st h1 h2 => ?_, fun st h1 h2 => ?_, by decide, by decide, by decide⟩
  · constructor
    · simp [InteractiveState.apply, h]
    · simp [InteractiveState.apply, h]
  · simp [InteractiveState.apply, h1, h2]
  · simp [InteractiveState.apply, h1, h2]

/-- C8 witness: the search-active case of the Escape priority applied at
the concrete state with search and focus both active. -/
theorem c8_witness :
    demo_nav_state.search_results.isSome = true ∧
    (demo_nav_state.apply NavAction.Esc
        = ({ demo_nav_state with search_results := none, search_pattern := none },
            Effect.Continue) ∧
      (demo_nav_state.apply NavAction.Esc).1.focus_stack = demo_nav_state.focus_stack) :=
  ⟨rfl, c8_escape_priority.1 demo_nav_state rfl⟩
